import Mathlib

/-!
Shallow embedding of the roguelike dungeon core (`src/main.rs`).

Machine integers (`i32`) are modelled as `Int`; all values involved stay far
from the `i32` overflow boundary, so plain integer arithmetic is faithful.
The tile grid `type Map = Vec<Vec<Tile>>` (dimensions `MAP_WIDTH × MAP_HEIGHT`)
is modelled by its contents as a total function `Int → Int → Tile`; reading it
through `Vec` indexing (`map[x as usize][y as usize]`, which panics out of
bounds, and which a negative index reaches because `as usize` wraps it to a
huge value) is modelled by the fallible `tileAt`.  Writes during generation are
modelled as pointwise updates; the theorem for claim C9 shows every index the
generator writes lies inside the `MAP_WIDTH × MAP_HEIGHT` rectangle, where the
two models agree.

`rand::thread_rng().gen_range(lo..hi)` returns a uniform element of `[lo, hi)`;
it is modelled by `genRange lo hi r` where `r : ℕ` is the raw draw taken from
the random source: as `r` ranges over `ℕ`, `genRange lo hi r` ranges over
exactly `[lo, hi)` (for `lo < hi`, which holds at every call site in the
program).  `rand::random::<f32>() < 0.8` and the tunnel-direction coin
`rand::random()` are modelled as `Bool` draws carried by the choice records.
-/

namespace Roguelike

/-- Rust `MAP_WIDTH` from `src/main.rs`. -/
def MAP_WIDTH : Int := 80

/-- Rust `MAP_HEIGHT` from `src/main.rs`. -/
def MAP_HEIGHT : Int := 45

/-- Rust `ROOM_MAX_SIZE` from `src/main.rs`. -/
def ROOM_MAX_SIZE : Int := 10

/-- Rust `ROOM_MIN_SIZE` from `src/main.rs`. -/
def ROOM_MIN_SIZE : Int := 6

/-- Rust `MAX_ROOMS` from `src/main.rs`. -/
def MAX_ROOMS : Int := 30

/-- Rust `MAX_ROOM_MONSTERS` from `src/main.rs`. -/
def MAX_ROOM_MONSTERS : Int := 3

/-- Rust `PLAYER` (the viewer is entity index 0) from `src/main.rs`. -/
def PLAYER : Nat := 0

/-- RGB color (external `tcod::colors::Color`). -/
structure Color where
  r : Nat
  g : Nat
  b : Nat
deriving DecidableEq, Repr

/-- Rust `tcod::colors::WHITE` (external constant). -/
def WHITE : Color := ⟨255, 255, 255⟩

/-- Rust `tcod::colors::DESATURATED_GREEN` (external constant). -/
def DESATURATED_GREEN : Color := ⟨63, 127, 63⟩

/-- Rust `tcod::colors::DARKER_GREEN` (external constant). -/
def DARKER_GREEN : Color := ⟨0, 127, 0⟩

/-- Rust `struct Tile` from `src/main.rs`. -/
structure Tile where
  blocked : Bool
  block_sight : Bool
  explored : Bool
deriving DecidableEq, Repr

/-- Rust `Tile::empty()` from `src/main.rs`. -/
def Tile.empty : Tile := { blocked := false, block_sight := false, explored := false }

/-- Rust `Tile.wall()` from `src/main.rs`. -/
def Tile.wall : Tile := { blocked := true, block_sight := true, explored := false }

/-- Rust `struct Object` from `src/main.rs`. -/
structure Object where
  x : Int
  y : Int
  char : Char
  color : Color
  name : String
  blocks : Bool
  alive : Bool
deriving DecidableEq, Repr

/-- Rust `Object::new(x, y, char, name, color, blocks)` from `src/main.rs`
(`alive` starts `false`). -/
def Object.new (x y : Int) (char : Char) (name : String) (color : Color)
    (blocks : Bool) : Object :=
  { x := x, y := y, char := char, color := color, name := name,
    blocks := blocks, alive := false }

/-- Rust `Object::pos` from `src/main.rs`. -/
def Object.pos (o : Object) : Int × Int := (o.x, o.y)

/-- Rust `Object::set_pos` from `src/main.rs`. -/
def Object.set_pos (o : Object) (x y : Int) : Object := { o with x := x, y := y }

/-- The tile grid `type Map = Vec<Vec<Tile>>`, modelled by its contents;
the dimensions are the constants `MAP_WIDTH × MAP_HEIGHT` used at every
creation and traversal site in `src/main.rs`. -/
def Map : Type := Int → Int → Tile

/-- The coordinate pair `(x, y)` is a valid index into the
`MAP_WIDTH × MAP_HEIGHT` grid. -/
abbrev inMap (x y : Int) : Prop :=
  0 ≤ x ∧ x < MAP_WIDTH ∧ 0 ≤ y ∧ y < MAP_HEIGHT

/-- Rust `map[x as usize][y as usize]` as a read: `some` tile when the index is in
bounds, `none` when the `Vec` indexing would panic (a negative coordinate
wraps under `as usize` to a huge index, also out of bounds). -/
def tileAt (m : Map) (x y : Int) : Option Tile :=
  if inMap x y then some (m x y) else none

/-- Rust `map[x as usize][y as usize] = t` as a write (pointwise content update;
claim C9's theorem shows generation only writes in-bounds indices). -/
def setTile (m : Map) (x y : Int) (t : Tile) : Map :=
  fun a b => if a = x ∧ b = y then t else m a b

/-- Rust `Object::move_by(dx, dy, game)` from `src/main.rs`, acting on the position
pair: the code reads `game.map[(self.x + dx) as usize][(self.y + dy) as usize]`
with no bounds check, then moves only when the destination tile is not
`blocked`.  `none` models the panic of an out-of-bounds `Vec` index. -/
def Object.move_by (pos : Int × Int) (dx dy : Int) (m : Map) : Option (Int × Int) :=
  match tileAt m (pos.1 + dx) (pos.2 + dy) with
  | none => none
  | some t => some (if !t.blocked then (pos.1 + dx, pos.2 + dy) else pos)

/-- Rust `struct Rect` from `src/main.rs`. -/
structure Rect where
  x1 : Int
  y1 : Int
  x2 : Int
  y2 : Int
deriving DecidableEq, Repr

/-- Rust `Rect::new(x, y, w, h)` from `src/main.rs`. -/
def Rect.new (x y w h : Int) : Rect :=
  { x1 := x, y1 := y, x2 := x + w, y2 := y + h }

/-- Rust `Rect::center` from `src/main.rs`; Rust `i32` division truncates toward
zero, which is `Int.tdiv`. -/
def Rect.center (r : Rect) : Int × Int :=
  ((r.x1 + r.x2).tdiv 2, (r.y1 + r.y2).tdiv 2)

/-- Rust `Rect::intersects_with` from `src/main.rs`. -/
def Rect.intersects_with (r other : Rect) : Bool :=
  (r.x1 ≤ other.x2) && (r.x2 ≥ other.x1) && (r.y1 ≤ other.y2) && (r.y2 ≥ other.y1)

/-- Rust `rand::thread_rng().gen_range(lo..hi)`: uniform draw from `[lo, hi)`,
modelled from the raw draw `r` of the random source.  Every call site in
`src/main.rs` has `lo < hi` (where the real `gen_range` is total). -/
def genRange (lo hi : Int) (r : Nat) : Int :=
  lo + ((r % (hi - lo).toNat : Nat) : Int)

/-- The Rust iterator `lo..hi` over `i32`, as the list of its elements. -/
def intRange (lo hi : Int) : List Int :=
  (List.range (hi - lo).toNat).map (fun (i : Nat) => lo + (i : Int))

/-- The index pairs the `create_room` double loop visits:
`for x in (room.x1 + 1)..room.x2 { for y in (room.y1 + 1)..room.y2 }`. -/
def roomInteriorPts (room : Rect) : List (Int × Int) :=
  (intRange (room.x1 + 1) room.x2).flatMap
    (fun x => (intRange (room.y1 + 1) room.y2).map (fun y => (x, y)))

/-- Rust `create_room(room, map)` from `src/main.rs`: sets every interior index to
`Tile::empty()`. -/
def create_room (room : Rect) (m : Map) : Map :=
  (roomInteriorPts room).foldl (fun m p => setTile m p.1 p.2 Tile.empty) m

/-- The index pairs the `create_h_tunnel` loop visits:
`for x in cmp::min(x1, x2)..(cmp::max(x1, x2) + 1)` at row `y`. -/
def hTunnelPts (x1 x2 y : Int) : List (Int × Int) :=
  (intRange (min x1 x2) (max x1 x2 + 1)).map (fun x => (x, y))

/-- Rust `create_h_tunnel(x1, x2, y, map)` from `src/main.rs`. -/
def create_h_tunnel (x1 x2 y : Int) (m : Map) : Map :=
  (hTunnelPts x1 x2 y).foldl (fun m p => setTile m p.1 p.2 Tile.empty) m

/-- The index pairs the `create_v_tunnel` loop visits:
`for y in cmp::min(y1, y2)..(cmp::max(y1, y2) + 1)` at column `x`. -/
def vTunnelPts (y1 y2 x : Int) : List (Int × Int) :=
  (intRange (min y1 y2) (max y1 y2 + 1)).map (fun y => (x, y))

/-- Rust `create_v_tunnel(y1, y2, x, map)` from `src/main.rs`. -/
def create_v_tunnel (y1 y2 x : Int) (m : Map) : Map :=
  (vTunnelPts y1 y2 x).foldl (fun m p => setTile m p.1 p.2 Tile.empty) m

/-- Random draws consumed for one monster in `place_objects`: the raw draws
behind `gen_range` for `x` and `y`, and the Boolean outcome of
`rand::random::<f32>() < 0.8` (true = orc). -/
structure MonsterChoice where
  xR : Nat
  yR : Nat
  orcRoll : Bool

/-- Random draws consumed by one `place_objects` call: the raw draw behind
`gen_range(0..MAX_ROOM_MONSTERS + 1)` and a stream of per-monster draws. -/
structure PlaceChoice where
  cntR : Nat
  monster : Nat → MonsterChoice

/-- Rust `place_objects(room, objects)` from `src/main.rs`: pushes `num_monsters`
new monsters (orc with the 0.8-probability roll, troll otherwise) at positions
sampled by `gen_range(room.x1 + 1..room.x2)` and `gen_range(room.y1..room.y2)`,
with no collision check against existing objects. -/
def place_objects (room : Rect) (objects : List Object) (c : PlaceChoice) :
    List Object :=
  let num_monsters := genRange 0 (MAX_ROOM_MONSTERS + 1) c.cntR
  objects ++ (List.range num_monsters.toNat).map (fun i =>
    let mc := c.monster i
    let x := genRange (room.x1 + 1) room.x2 mc.xR
    let y := genRange room.y1 room.y2 mc.yR
    if mc.orcRoll then Object.new x y 'o' "orc" DESATURATED_GREEN true
    else Object.new x y 'T' "troll" DARKER_GREEN true)

/-- Rust `objects[i].set_pos(x, y)`: update entity `i` in the collection (every
call in `src/main.rs` has `i = PLAYER = 0` inside a nonempty collection). -/
def set_object_pos (objects : List Object) (i : Nat) (x y : Int) : List Object :=
  match objects.get? i with
  | some o => objects.set i (o.set_pos x y)
  | none => objects

/-- The corridor carved between the previous accepted room's center `prev` and
the new room's center `c` in `make_map`: one orthogonal dogleg whose ordering
is picked by the `rand::random()` coin. -/
def carve_dogleg (coinFlip : Bool) (prev c : Int × Int) (m : Map) : Map :=
  if coinFlip then
    create_v_tunnel prev.2 c.2 c.1 (create_h_tunnel prev.1 c.1 prev.2 m)
  else
    create_h_tunnel prev.1 c.1 c.2 (create_v_tunnel prev.2 c.2 prev.1 m)

/-- Random draws consumed by one loop iteration (room attempt) of `make_map`:
raw draws behind `gen_range` for `w`, `h`, `x`, `y`, the tunnel-ordering coin
`rand::random()`, and the draws of the attempt's `place_objects` call. -/
structure AttemptChoice where
  wR : Nat
  hR : Nat
  xR : Nat
  yR : Nat
  coinFlip : Bool
  place : PlaceChoice

/-- The generation state threaded through `make_map`: the grid being carved,
the local `rooms` vector, and the `&mut objects` collection. -/
structure GenState where
  map : Map
  rooms : List Rect
  objects : List Object

/-- The candidate room sampled by one `make_map` attempt:
`let w = gen_range(ROOM_MIN_SIZE..ROOM_MAX_SIZE + 1)` (likewise `h`),
`let x = gen_range(0..MAP_WIDTH - w)`, `let y = gen_range(0..MAP_HEIGHT - h)`,
`Rect::new(x, y, w, h)`. -/
def attempt_room (c : AttemptChoice) : Rect :=
  let w := genRange ROOM_MIN_SIZE (ROOM_MAX_SIZE + 1) c.wR
  let h := genRange ROOM_MIN_SIZE (ROOM_MAX_SIZE + 1) c.hR
  let x := genRange 0 (MAP_WIDTH - w) c.xR
  let y := genRange 0 (MAP_HEIGHT - h) c.yR
  Rect.new x y w h

/-- The `!failed` branch of the `make_map` loop body: carve the room, place
its monsters, then either seat the player (first accepted room) or carve the
connecting dogleg from the previous accepted room's center, and push the room
onto the accepted list. -/
def make_map_accept (st : GenState) (c : AttemptChoice) : GenState :=
  let new_room := attempt_room c
  let map1 := create_room new_room st.map
  let objects1 := place_objects new_room st.objects c.place
  let center := new_room.center
  if st.rooms.isEmpty then
    { map := map1,
      rooms := st.rooms ++ [new_room],
      objects := set_object_pos objects1 PLAYER center.1 center.2 }
  else
    -- `rooms[rooms.len() - 1]`; this branch has `rooms` nonempty, so the
    -- default of `getLastD` is never selected.
    let prev := (st.rooms.getLastD (Rect.new 0 0 0 0)).center
    { map := carve_dogleg c.coinFlip prev center map1,
      rooms := st.rooms ++ [new_room],
      objects := objects1 }

/-- One iteration of the `for _ in 0..MAX_ROOMS` loop body of `make_map`:
sample the candidate, test it against every previously accepted room with
`intersects_with`, and skip it (`failed`) or accept it. -/
def make_map_step (st : GenState) (c : AttemptChoice) : GenState :=
  if st.rooms.any (fun other_room => (attempt_room c).intersects_with other_room)
  then st
  else make_map_accept st c

/-- Rust `vec![vec![Tile::wall(); MAP_HEIGHT as usize]; MAP_WIDTH as usize]`. -/
def initialMap : Map := fun _ _ => Tile.wall

/-- Rust `make_map(&mut objects)` from `src/main.rs`, with the per-attempt random
draws passed explicitly (the real loop runs `MAX_ROOMS` attempts, i.e. a
choice list of length 30); returns the final grid together with the local
`rooms` vector and the updated object collection. -/
def make_map (choices : List AttemptChoice) (objects : List Object) : GenState :=
  choices.foldl make_map_step { map := initialMap, rooms := [], objects := objects }

/-- The mutation `render_all` performs on the grid in one tick: for every
in-bounds tile reported visible by the fov oracle (`tcod.fov.is_in_fov`),
set `explored` to `true`; every other tile is untouched. -/
def render_all_explored (vis : Int → Int → Bool) (m : Map) : Map :=
  fun x y =>
    if inMap x y ∧ vis x y = true then { m x y with explored := true } else m x y

/-- A sequence of `render_all` ticks, each with the visibility field the fov
oracle holds during that tick. -/
def render_ticks (viss : List (Int → Int → Bool)) (m : Map) : Map :=
  viss.foldl (fun m v => render_all_explored v m) m

/-- Rust `let fov_recompute = previous_player_position != (objects[PLAYER].pos())`
from `main`; `render_all` issues `tcod.fov.compute_fov` exactly when this flag
is true. -/
def fov_recompute (prev pos : Int × Int) : Bool := decide (prev ≠ pos)

/-- Rust `let mut previous_player_position = (-1, -1)` from `main`. -/
def previous_player_position_init : Int × Int := (-1, -1)

/-- The sequence of `fov_recompute` flags produced by the main loop when the
viewer renders at the given sequence of positions: each tick compares the
position against the previous tick's recorded position (line
`previous_player_position = (player.x, player.y)`), starting from `prev`. -/
def main_flags (prev : Int × Int) : List (Int × Int) → List Bool
  | [] => []
  | p :: ps => fov_recompute prev p :: main_flags p ps

/-! ### Statement predicates and concrete data used by the theorems -/

/-- The player object `Object::new(0, 0, '@', "player", WHITE, true)` from
`main`. -/
def player0 : Object := Object.new 0 0 '@' "player" WHITE true

/-- A `place_objects` draw record yielding zero monsters. -/
def noMonsters : PlaceChoice :=
  { cntR := 0, monster := fun _ => { xR := 0, yR := 0, orcRoll := true } }

/-- A room attempt whose draws give the room `Rect.new 0 0 6 6`. -/
def choiceA : AttemptChoice :=
  { wR := 0, hR := 0, xR := 0, yR := 0, coinFlip := true, place := noMonsters }

/-- A room attempt whose draws give the room `Rect.new 20 0 6 6`. -/
def choiceB : AttemptChoice :=
  { wR := 0, hR := 0, xR := 20, yR := 0, coinFlip := true, place := noMonsters }

/-- A concrete `place_objects` draw record: one monster at the draws
`xR = 2`, `yR = 3`, orc roll true. -/
def placeW : PlaceChoice := { cntR := 1, monster := fun _ => ⟨2, 3, true⟩ }

/-- A map with `explored` set at `(0, 0)`: the all-wall grid after one tick
with everything visible. -/
def exploredSeedMap : Map := render_all_explored (fun _ _ => true) initialMap

/-- Membership in a horizontal corridor segment: row `y`, columns from
`min x1 x2` to `max x1 x2` inclusive. -/
abbrev onHSeg (x1 x2 y a b : Int) : Prop :=
  min x1 x2 ≤ a ∧ a ≤ max x1 x2 ∧ b = y

/-- Membership in a vertical corridor segment: column `x`, rows from
`min y1 y2` to `max y1 y2` inclusive. -/
abbrev onVSeg (y1 y2 x a b : Int) : Prop :=
  a = x ∧ min y1 y2 ≤ b ∧ b ≤ max y1 y2

/-- The accepted-rooms list is pairwise non-intersecting. -/
def RoomsOK (st : GenState) : Prop :=
  st.rooms.Pairwise (fun a b => a.intersects_with b = false)

/-- A rectangle whose closed extent fits inside the grid with a border
margin: `x2 ≤ MAP_WIDTH - 1`, `y2 ≤ MAP_HEIGHT - 1`. -/
abbrev RectBounds (r : Rect) : Prop :=
  0 ≤ r.x1 ∧ r.x1 ≤ r.x2 ∧ r.x2 ≤ MAP_WIDTH - 1
  ∧ 0 ≤ r.y1 ∧ r.y1 ≤ r.y2 ∧ r.y2 ≤ MAP_HEIGHT - 1

/-- Generation invariant: the object collection is nonempty, and whenever at
least one room has been accepted, entity 0 sits at the first accepted room's
center and that tile of the grid is carved floor. -/
abbrev FirstRoomInv (st : GenState) : Prop :=
  st.objects ≠ []
  ∧ ∀ r0 l, st.rooms = r0 :: l →
      (∃ o, st.objects.get? PLAYER = some o ∧ (o.x, o.y) = r0.center)
      ∧ st.map r0.center.1 r0.center.2 = Tile.empty

/-- The monster built on iteration `j` of the `place_objects` loop. -/
def monster_for (room : Rect) (c : PlaceChoice) (j : Nat) : Object :=
  let mc := c.monster j
  let x := genRange (room.x1 + 1) room.x2 mc.xR
  let y := genRange room.y1 room.y2 mc.yR
  if mc.orcRoll then Object.new x y 'o' "orc" DESATURATED_GREEN true
  else Object.new x y 'T' "troll" DARKER_GREEN true

/-! ### Basic evaluation lemmas -/

theorem mem_intRange {lo hi a : Int} : a ∈ intRange lo hi ↔ lo ≤ a ∧ a < hi := by
  unfold intRange
  rw [List.mem_map]
  constructor
  · rintro ⟨i, h1, rfl⟩
    rw [List.mem_range] at h1
    omega
  · intro h
    refine ⟨(a - lo).toNat, ?_, ?_⟩
    · rw [List.mem_range]
      omega
    · omega

theorem foldl_setTile_eval (pts : List (Int × Int)) (t : Tile) (m : Map) (a b : Int) :
    (pts.foldl (fun m p => setTile m p.1 p.2 t) m) a b
      = if (a, b) ∈ pts then t else m a b := by
  induction pts generalizing m with
  | nil => simp
  | cons p ps ih =>
    simp only [List.foldl_cons, ih, List.mem_cons, setTile]
    by_cases hmem : (a, b) ∈ ps
    · simp [hmem]
    · by_cases hp : (a, b) = p
      · subst hp
        simp [hmem]
      · have : ¬(a = p.1 ∧ b = p.2) := by
          intro hc
          exact hp (Prod.ext hc.1 hc.2)
        simp [hmem, hp, this]

theorem mem_roomInteriorPts {room : Rect} {a b : Int} :
    (a, b) ∈ roomInteriorPts room
      ↔ room.x1 < a ∧ a < room.x2 ∧ room.y1 < b ∧ b < room.y2 := by
  simp only [roomInteriorPts, List.mem_flatMap, List.mem_map, Prod.mk.injEq]
  constructor
  · rintro ⟨x, hx, y, hy, rfl, rfl⟩
    have hx' := mem_intRange.mp hx
    have hy' := mem_intRange.mp hy
    omega
  · intro h
    exact ⟨a, mem_intRange.mpr (by omega), b, mem_intRange.mpr (by omega), rfl, rfl⟩

theorem create_room_eval (room : Rect) (m : Map) (a b : Int) :
    create_room room m a b
      = if room.x1 < a ∧ a < room.x2 ∧ room.y1 < b ∧ b < room.y2
        then Tile.empty else m a b := by
  rw [create_room, foldl_setTile_eval]
  by_cases h : room.x1 < a ∧ a < room.x2 ∧ room.y1 < b ∧ b < room.y2
  · simp [h, mem_roomInteriorPts]
  · simp [h, mem_roomInteriorPts]

theorem mem_hTunnelPts {x1 x2 y a b : Int} :
    (a, b) ∈ hTunnelPts x1 x2 y ↔ min x1 x2 ≤ a ∧ a ≤ max x1 x2 ∧ b = y := by
  simp only [hTunnelPts, List.mem_map, Prod.mk.injEq]
  constructor
  · rintro ⟨x, hx, rfl, rfl⟩
    have := mem_intRange.mp hx
    omega
  · rintro ⟨h1, h2, rfl⟩
    exact ⟨a, mem_intRange.mpr (by omega), rfl, rfl⟩

theorem mem_vTunnelPts {y1 y2 x a b : Int} :
    (a, b) ∈ vTunnelPts y1 y2 x ↔ a = x ∧ min y1 y2 ≤ b ∧ b ≤ max y1 y2 := by
  simp only [vTunnelPts, List.mem_map, Prod.mk.injEq]
  constructor
  · rintro ⟨yv, hyv, rfl, rfl⟩
    have := mem_intRange.mp hyv
    omega
  · rintro ⟨rfl, h1, h2⟩
    exact ⟨b, mem_intRange.mpr (by omega), rfl, rfl⟩

theorem create_h_tunnel_eval (x1 x2 y : Int) (m : Map) (a b : Int) :
    create_h_tunnel x1 x2 y m a b
      = if min x1 x2 ≤ a ∧ a ≤ max x1 x2 ∧ b = y then Tile.empty else m a b := by
  rw [create_h_tunnel, foldl_setTile_eval]
  by_cases h : min x1 x2 ≤ a ∧ a ≤ max x1 x2 ∧ b = y
  · simp [h, mem_hTunnelPts]
  · simp [h, mem_hTunnelPts]

theorem create_v_tunnel_eval (y1 y2 x : Int) (m : Map) (a b : Int) :
    create_v_tunnel y1 y2 x m a b
      = if a = x ∧ min y1 y2 ≤ b ∧ b ≤ max y1 y2 then Tile.empty else m a b := by
  rw [create_v_tunnel, foldl_setTile_eval]
  by_cases h : a = x ∧ min y1 y2 ≤ b ∧ b ≤ max y1 y2
  · simp [h, mem_vTunnelPts]
  · simp [h, mem_vTunnelPts]

/-! ### `genRange`, centers, intersection -/

theorem genRange_bounds {lo hi : Int} (h : lo < hi) (r : Nat) :
    lo ≤ genRange lo hi r ∧ genRange lo hi r < hi := by
  unfold genRange
  have hn : (0:Nat) < (hi - lo).toNat := by omega
  have := Nat.mod_lt r hn
  omega

theorem genRange_surjective {lo hi k : Int} (hlo : lo ≤ k) (hhi : k < hi) :
    ∃ r : Nat, genRange lo hi r = k := by
  refine ⟨(k - lo).toNat, ?_⟩
  unfold genRange
  have : (k - lo).toNat % (hi - lo).toNat = (k - lo).toNat :=
    Nat.mod_eq_of_lt (by omega)
  omega

theorem intersects_with_true_iff (r other : Rect) :
    r.intersects_with other = true
      ↔ r.x1 ≤ other.x2 ∧ r.x2 ≥ other.x1 ∧ r.y1 ≤ other.y2 ∧ r.y2 ≥ other.y1 := by
  simp [Rect.intersects_with, and_assoc]

theorem intersects_with_comm (r other : Rect) :
    r.intersects_with other = other.intersects_with r := by
  cases hb : r.intersects_with other <;> cases hb2 : other.intersects_with r
  · rfl
  · exfalso
    have p2 := (intersects_with_true_iff other r).mp hb2
    have hc : r.intersects_with other = true :=
      (intersects_with_true_iff r other).mpr (by omega)
    rw [hb] at hc
    exact Bool.false_ne_true hc
  · exfalso
    have p1 := (intersects_with_true_iff r other).mp hb
    have hc : other.intersects_with r = true :=
      (intersects_with_true_iff other r).mpr (by omega)
    rw [hb2] at hc
    exact Bool.false_ne_true hc
  · rfl

theorem center_between {lo hi : Int} (h0 : 0 ≤ lo) (hle : lo ≤ hi) :
    lo ≤ (lo + hi).tdiv 2 ∧ (lo + hi).tdiv 2 ≤ hi := by
  rw [Int.tdiv_eq_ediv (by omega) (by omega)]
  omega

theorem center_strictly_inside {lo w : Int} (h0 : 0 ≤ lo) (hw : 2 ≤ w) :
    lo < (lo + (lo + w)).tdiv 2 ∧ (lo + (lo + w)).tdiv 2 < lo + w := by
  rw [Int.tdiv_eq_ediv (by omega) (by omega)]
  omega

/-! ### Claim C1 -/

/-- C1 counterexample: in the game state generated by a concrete `make_map`
run, the viewer really is at `(3, 3)`, yet `move_by` with delta `(-4, 0)` —
destination `(-1, 3)`, outside the grid — does not leave the position
unchanged: it indexes the grid out of bounds (the `as usize` cast wraps `-1`
and `game.map[...]` panics), modelled by `none`. -/
theorem move_by_out_of_bounds_faults :
    (∃ o, ((make_map [choiceA] [player0]).objects.get? PLAYER = some o
            ∧ o.pos = (3, 3)))
    ∧ Object.move_by (3, 3) (-4) 0 (make_map [choiceA] [player0]).map = none := by
  constructor
  · refine ⟨{ x := 3, y := 3, char := '@', color := WHITE, name := "player",
              blocks := true, alive := false }, ?_, rfl⟩
    decide
  · rfl

/-- C1 (amended): `Object::move_by` performs no bounds check.  For a
destination inside the `MAP_WIDTH × MAP_HEIGHT` grid it moves exactly when the
destination tile is not `blocked`; for a destination outside the grid it
indexes the tile array out of bounds (a panic, modelled as `none`) instead of
treating the move as blocked. -/
theorem move_by_bounds_spec (pos : Int × Int) (dx dy : Int) (m : Map) :
    (inMap (pos.1 + dx) (pos.2 + dy) →
      Object.move_by pos dx dy m
        = some (if (m (pos.1 + dx) (pos.2 + dy)).blocked = false
                then (pos.1 + dx, pos.2 + dy) else pos))
    ∧ (¬ inMap (pos.1 + dx) (pos.2 + dy) → Object.move_by pos dx dy m = none) := by
  constructor
  · intro h
    unfold Object.move_by tileAt
    rw [if_pos h]
    cases hb : (m (pos.1 + dx) (pos.2 + dy)).blocked <;> simp [hb]
  · intro h
    unfold Object.move_by tileAt
    rw [if_neg h]

/-- C1 amended-claim witness: on the all-wall grid, a blocked in-bounds move
leaves the position unchanged, and an out-of-bounds destination faults. -/
theorem move_by_bounds_spec_witness :
    Object.move_by (3, 3) 0 (-1) initialMap = some (3, 3)
    ∧ Object.move_by (0, 0) (-1) 0 initialMap = none := by
  constructor
  · have h := (move_by_bounds_spec (3, 3) 0 (-1) initialMap).1 (by decide)
    rw [h]
    decide
  · exact (move_by_bounds_spec (0, 0) (-1) 0 initialMap).2 (by decide)

/-! ### Claim C2 -/

/-- C2: the `explored` flag is monotonic.  Over any sequence of `render_all`
ticks (each with whatever visibility field the fov oracle holds at that tick),
once a tile's `explored` flag is true it remains true; no tick resets it. -/
theorem explored_monotonic (viss : List (Int → Int → Bool)) (m : Map) (x y : Int)
    (h : (m x y).explored = true) :
    ((render_ticks viss m) x y).explored = true := by
  induction viss generalizing m with
  | nil => exact h
  | cons v vs ih =>
    show ((render_ticks vs (render_all_explored v m)) x y).explored = true
    apply ih
    simp only [render_all_explored]
    split
    · rfl
    · exact h

/-- C2 witness: a concrete explored tile stays explored over a further tick
with nothing visible. -/
theorem explored_monotonic_witness :
    ((render_ticks [fun _ _ => false] exploredSeedMap) 0 0).explored = true :=
  explored_monotonic [fun _ _ => false] exploredSeedMap 0 0 (by decide)

/-! ### Claim C4 -/

/-- C4: on every main-loop tick the fov oracle's `compute_fov` is issued iff
the viewer's position differs from the previous tick's recorded position
(first conjunct: the flag sequence over any run equals the pointwise
comparison of each render position with its predecessor); the recorded
previous position starts at the sentinel `(-1, -1)` (second conjunct), which
differs from every in-grid position, so the first tick always recomputes
(third conjunct). -/
theorem fov_compute_iff_moved (ps : List (Int × Int)) :
    (∀ prev, main_flags prev ps
        = ((prev :: ps).zip ps).map (fun q => decide (q.1 ≠ q.2)))
    ∧ previous_player_position_init = (-1, -1)
    ∧ (∀ p0 rest, ps = p0 :: rest → inMap p0.1 p0.2 →
        (main_flags previous_player_position_init ps).head? = some true) := by
  refine ⟨?_, rfl, ?_⟩
  · intro prev
    induction ps generalizing prev with
    | nil => rfl
    | cons p ps ih =>
      show fov_recompute prev p :: main_flags p ps = _
      rw [ih p]
      rfl
  · intro p0 rest hps hin
    subst hps
    have hne : previous_player_position_init ≠ p0 := by
      intro hc
      rw [← hc] at hin
      exact absurd hin (by decide)
    show some (fov_recompute previous_player_position_init p0) = some true
    simp [fov_recompute, hne]

/-- C4 witness: with the viewer first rendering at the in-grid position
`(3, 4)`, the first tick's flag is true. -/
theorem fov_compute_iff_moved_witness :
    (main_flags previous_player_position_init [((3 : Int), (4 : Int))]).head?
      = some true :=
  (fov_compute_iff_moved [(3, 4)]).2.2 (3, 4) [] rfl (by decide)

/-! ### Claim C5 -/

/-- C5: `create_room` sets exactly the strictly interior tiles
(`x1 < x < x2`, `y1 < y < y2`) to `Tile::empty()` (floor: `blocked = false`,
`block_sight = false`), and leaves every other tile — in particular the whole
border of the rectangle — unchanged. -/
theorem create_room_interior_floor (room : Rect) (m : Map) (x y : Int) :
    ((room.x1 < x ∧ x < room.x2 ∧ room.y1 < y ∧ y < room.y2) →
      create_room room m x y = Tile.empty)
    ∧ (¬(room.x1 < x ∧ x < room.x2 ∧ room.y1 < y ∧ y < room.y2) →
      create_room room m x y = m x y) := by
  constructor <;> intro h <;> rw [create_room_eval]
  · rw [if_pos h]
  · rw [if_neg h]

/-- C5 witness (the spec's concrete scenario, room `(2, 2, 8, 8)`): the
interior tile `(3, 3)` becomes floor and the border tile `(2, 5)` is left
as it was. -/
theorem create_room_interior_floor_witness :
    create_room ⟨2, 2, 8, 8⟩ initialMap 3 3 = Tile.empty
    ∧ create_room ⟨2, 2, 8, 8⟩ initialMap 2 5 = initialMap 2 5 :=
  ⟨(create_room_interior_floor ⟨2, 2, 8, 8⟩ initialMap 3 3).1 (by decide),
   (create_room_interior_floor ⟨2, 2, 8, 8⟩ initialMap 2 5).2 (by decide)⟩

/-! ### Claim C6 -/

/-- C6: the corridor between consecutive room centers `(px, py)` and
`(nx, ny)` is exactly one orthogonal dogleg, selected by the random coin:
with the coin true, a horizontal segment at the previous center's row `py`
followed by a vertical segment at the new center's column `nx`; with the coin
false, a vertical segment at the previous center's column `px` followed by a
horizontal segment at the new center's row `ny`.  Each segment runs from the
min endpoint to the max endpoint inclusive and is set to floor; every tile off
the two segments is left unchanged. -/
theorem dogleg_carves_exactly (px py nx ny a b : Int) (m : Map) :
    (onHSeg px nx py a b → carve_dogleg true (px, py) (nx, ny) m a b = Tile.empty)
    ∧ (onVSeg py ny nx a b → carve_dogleg true (px, py) (nx, ny) m a b = Tile.empty)
    ∧ (¬ onHSeg px nx py a b → ¬ onVSeg py ny nx a b →
        carve_dogleg true (px, py) (nx, ny) m a b = m a b)
    ∧ (onVSeg py ny px a b → carve_dogleg false (px, py) (nx, ny) m a b = Tile.empty)
    ∧ (onHSeg px nx ny a b → carve_dogleg false (px, py) (nx, ny) m a b = Tile.empty)
    ∧ (¬ onVSeg py ny px a b → ¬ onHSeg px nx ny a b →
        carve_dogleg false (px, py) (nx, ny) m a b = m a b) := by
  refine ⟨?_, ?_, ?_, ?_, ?_, ?_⟩
  · intro h
    show create_v_tunnel py ny nx (create_h_tunnel px nx py m) a b = Tile.empty
    rw [create_v_tunnel_eval, create_h_tunnel_eval]
    by_cases hv : a = nx ∧ min py ny ≤ b ∧ b ≤ max py ny
    · rw [if_pos hv]
    · rw [if_neg hv, if_pos h]
  · intro h
    show create_v_tunnel py ny nx (create_h_tunnel px nx py m) a b = Tile.empty
    rw [create_v_tunnel_eval]
    exact if_pos h
  · intro h1 h2
    show create_v_tunnel py ny nx (create_h_tunnel px nx py m) a b = m a b
    rw [create_v_tunnel_eval, create_h_tunnel_eval, if_neg h2, if_neg h1]
  · intro h
    show create_h_tunnel px nx ny (create_v_tunnel py ny px m) a b = Tile.empty
    rw [create_h_tunnel_eval, create_v_tunnel_eval]
    by_cases hh : min px nx ≤ a ∧ a ≤ max px nx ∧ b = ny
    · rw [if_pos hh]
    · rw [if_neg hh, if_pos h]
  · intro h
    show create_h_tunnel px nx ny (create_v_tunnel py ny px m) a b = Tile.empty
    rw [create_h_tunnel_eval]
    exact if_pos h
  · intro h1 h2
    show create_h_tunnel px nx ny (create_v_tunnel py ny px m) a b = m a b
    rw [create_h_tunnel_eval, create_v_tunnel_eval, if_neg h2, if_neg h1]

/-- C6 witness: for the dogleg carved (coin true) between centers `(3, 3)` and
`(10, 8)`, the tile `(5, 3)` on the horizontal segment becomes floor and the
off-path tile `(0, 0)` is untouched. -/
theorem dogleg_carves_exactly_witness :
    carve_dogleg true (3, 3) (10, 8) initialMap 5 3 = Tile.empty
    ∧ carve_dogleg true (3, 3) (10, 8) initialMap 0 0 = initialMap 0 0 :=
  ⟨(dogleg_carves_exactly 3 3 10 8 5 3 initialMap).1 (by decide),
   (dogleg_carves_exactly 3 3 10 8 0 0 initialMap).2.2.1 (by decide) (by decide)⟩

/-! ### Structure of one `make_map` attempt -/

theorem Rect.new_x1 (x y w h : Int) : (Rect.new x y w h).x1 = x := rfl

theorem Rect.new_y1 (x y w h : Int) : (Rect.new x y w h).y1 = y := rfl

theorem Rect.new_x2 (x y w h : Int) : (Rect.new x y w h).x2 = x + w := rfl

theorem Rect.new_y2 (x y w h : Int) : (Rect.new x y w h).y2 = y + h := rfl

/-- Every sampled candidate room has side lengths in
`[ROOM_MIN_SIZE, ROOM_MAX_SIZE]` and fits inside the grid with
`x2 ≤ MAP_WIDTH - 1` and `y2 ≤ MAP_HEIGHT - 1`. -/
theorem attempt_room_bounds (c : AttemptChoice) :
    0 ≤ (attempt_room c).x1
    ∧ (attempt_room c).x1 + ROOM_MIN_SIZE ≤ (attempt_room c).x2
    ∧ (attempt_room c).x2 ≤ (attempt_room c).x1 + ROOM_MAX_SIZE
    ∧ (attempt_room c).x2 ≤ MAP_WIDTH - 1
    ∧ 0 ≤ (attempt_room c).y1
    ∧ (attempt_room c).y1 + ROOM_MIN_SIZE ≤ (attempt_room c).y2
    ∧ (attempt_room c).y2 ≤ (attempt_room c).y1 + ROOM_MAX_SIZE
    ∧ (attempt_room c).y2 ≤ MAP_HEIGHT - 1 := by
  have e1 : ROOM_MIN_SIZE = 6 := rfl
  have e2 : ROOM_MAX_SIZE = 10 := rfl
  have e3 : MAP_WIDTH = 80 := rfl
  have e4 : MAP_HEIGHT = 45 := rfl
  have hw := @genRange_bounds ROOM_MIN_SIZE (ROOM_MAX_SIZE + 1) (by omega) c.wR
  have hh := @genRange_bounds ROOM_MIN_SIZE (ROOM_MAX_SIZE + 1) (by omega) c.hR
  have hx := @genRange_bounds 0
    (MAP_WIDTH - genRange ROOM_MIN_SIZE (ROOM_MAX_SIZE + 1) c.wR) (by omega) c.xR
  have hy := @genRange_bounds 0
    (MAP_HEIGHT - genRange ROOM_MIN_SIZE (ROOM_MAX_SIZE + 1) c.hR) (by omega) c.yR
  have har : attempt_room c
      = Rect.new
          (genRange 0 (MAP_WIDTH - genRange ROOM_MIN_SIZE (ROOM_MAX_SIZE + 1) c.wR) c.xR)
          (genRange 0 (MAP_HEIGHT - genRange ROOM_MIN_SIZE (ROOM_MAX_SIZE + 1) c.hR) c.yR)
          (genRange ROOM_MIN_SIZE (ROOM_MAX_SIZE + 1) c.wR)
          (genRange ROOM_MIN_SIZE (ROOM_MAX_SIZE + 1) c.hR) := rfl
  rw [har, Rect.new_x1, Rect.new_x2, Rect.new_y1, Rect.new_y2]
  omega

/-- Case analysis for one attempt: either the candidate intersects some
accepted room and the state is unchanged, or it intersects none and the
accept branch runs. -/
theorem make_map_step_eq (st : GenState) (c : AttemptChoice) :
    (st.rooms.any (fun other => (attempt_room c).intersects_with other) = true
      ∧ make_map_step st c = st)
    ∨ (st.rooms.any (fun other => (attempt_room c).intersects_with other) = false
      ∧ make_map_step st c = make_map_accept st c) := by
  by_cases h : st.rooms.any (fun other => (attempt_room c).intersects_with other) = true
  · left
    exact ⟨h, by unfold make_map_step; rw [if_pos h]⟩
  · right
    refine ⟨by simpa using h, ?_⟩
    unfold make_map_step
    rw [if_neg h]

theorem make_map_accept_first (st : GenState) (c : AttemptChoice)
    (he : st.rooms = []) :
    make_map_accept st c
      = { map := create_room (attempt_room c) st.map,
          rooms := [attempt_room c],
          objects := set_object_pos
            (place_objects (attempt_room c) st.objects c.place) PLAYER
            (attempt_room c).center.1 (attempt_room c).center.2 } := by
  unfold make_map_accept
  rw [he]
  rfl

theorem make_map_accept_later (st : GenState) (c : AttemptChoice) (r : Rect)
    (l : List Rect) (he : st.rooms = r :: l) :
    make_map_accept st c
      = { map := carve_dogleg c.coinFlip
            (((r :: l).getLastD (Rect.new 0 0 0 0)).center)
            (attempt_room c).center
            (create_room (attempt_room c) st.map),
          rooms := (r :: l) ++ [attempt_room c],
          objects := place_objects (attempt_room c) st.objects c.place } := by
  unfold make_map_accept
  rw [he]
  rfl

/-- Preservation of a state predicate along the whole attempt loop. -/
theorem make_map_fold_invariant (P : GenState → Prop)
    (hstep : ∀ st c, P st → P (make_map_step st c)) :
    ∀ (choices : List AttemptChoice) (st : GenState),
      P st → P (choices.foldl make_map_step st) := by
  intro choices
  induction choices with
  | nil => intro st h; exact h
  | cons c cs ih => intro st h; exact ih _ (hstep st c h)

/-! ### Claim C3 -/

theorem step_preserves_roomsOK (st : GenState) (c : AttemptChoice)
    (h : RoomsOK st) : RoomsOK (make_map_step st c) := by
  rcases make_map_step_eq st c with ⟨_, heq⟩ | ⟨hany, heq⟩
  · rw [heq]; exact h
  · rw [heq]
    have hall : ∀ other ∈ st.rooms,
        (attempt_room c).intersects_with other = false := by
      rw [List.any_eq_false] at hany
      intro o ho
      exact (Bool.not_eq_true _).mp (hany o ho)
    rcases hr : st.rooms with _ | ⟨r, l⟩
    · rw [make_map_accept_first st c hr]
      exact List.pairwise_singleton _ _
    · rw [make_map_accept_later st c r l hr]
      show ((r :: l) ++ [attempt_room c]).Pairwise _
      rw [List.pairwise_append]
      have h2 : st.rooms.Pairwise (fun a b => a.intersects_with b = false) := h
      rw [hr] at h2
      refine ⟨h2, List.pairwise_singleton _ _, ?_⟩
      intro a ha b hb
      rw [List.mem_singleton] at hb
      subst hb
      rw [intersects_with_comm]
      exact hall a (by rw [hr]; exact ha)

/-- C3: in any `make_map` run, any two distinct rectangles of the accepted
room list do not intersect under the closed-interval `intersects_with`
test. -/
theorem rooms_pairwise_disjoint (choices : List AttemptChoice)
    (objs : List Object) :
    ∀ r1 ∈ (make_map choices objs).rooms, ∀ r2 ∈ (make_map choices objs).rooms,
      r1 ≠ r2 → r1.intersects_with r2 = false := by
  have hP : RoomsOK (make_map choices objs) :=
    make_map_fold_invariant RoomsOK step_preserves_roomsOK choices
      { map := initialMap, rooms := [], objects := objs } List.Pairwise.nil
  intro r1 h1 r2 h2 hne
  refine List.Pairwise.forall ?_ hP h1 h2 hne
  intro a b hab
  rw [intersects_with_comm]
  exact hab

/-- C3 witness: a concrete two-attempt run accepts the rooms `(0,0,6,6)` and
`(20,0,26,6)`, and they do not intersect. -/
theorem rooms_pairwise_disjoint_witness :
    Rect.intersects_with ⟨0, 0, 6, 6⟩ ⟨20, 0, 26, 6⟩ = false :=
  rooms_pairwise_disjoint [choiceA, choiceB] [player0]
    ⟨0, 0, 6, 6⟩ (by decide) ⟨20, 0, 26, 6⟩ (by decide) (by decide)

/-! ### Claim C8 -/

theorem step_rooms_length (st : GenState) (c : AttemptChoice) :
    (make_map_step st c).rooms.length ≤ st.rooms.length + 1 := by
  rcases make_map_step_eq st c with ⟨_, heq⟩ | ⟨_, heq⟩
  · rw [heq]; omega
  · rw [heq]
    rcases hr : st.rooms with _ | ⟨r, l⟩
    · rw [make_map_accept_first st c hr]
      simp
    · rw [make_map_accept_later st c r l hr]
      simp

theorem fold_rooms_length (choices : List AttemptChoice) :
    ∀ st : GenState,
      (choices.foldl make_map_step st).rooms.length
        ≤ st.rooms.length + choices.length := by
  induction choices with
  | nil => intro st; simp
  | cons c cs ih =>
    intro st
    have h1 := ih (make_map_step st c)
    have h2 := step_rooms_length st c
    simp only [List.foldl_cons, List.length_cons]
    omega

theorem fold_rooms_nil (choices : List AttemptChoice) :
    ∀ st : GenState, (choices.foldl make_map_step st).rooms = [] →
      choices.foldl make_map_step st = st ∧ st.rooms = [] := by
  induction choices with
  | nil => intro st h; exact ⟨rfl, h⟩
  | cons c cs ih =>
    intro st h
    have h2 := ih (make_map_step st c) h
    rcases make_map_step_eq st c with ⟨_, heq⟩ | ⟨_, heq⟩
    · refine ⟨h2.1.trans heq, ?_⟩
      have h3 := h2.2
      rw [heq] at h3
      exact h3
    · exfalso
      rw [heq] at h2
      rcases hr : st.rooms with _ | ⟨r, l⟩
      · rw [make_map_accept_first st c hr] at h2
        exact absurd h2.2 (by simp)
      · rw [make_map_accept_later st c r l hr] at h2
        exact absurd h2.2 (by simp)

/-- C8: `make_map` runs its whole attempt budget and returns normally no
matter how many rooms are accepted: the room count never exceeds the number
of attempts (one room at most per attempt, no early exit); with an empty
attempt list (`N = 0`) the result is the all-wall grid, no accepted rooms,
and the untouched object collection; and whenever the run ends with zero
accepted rooms the whole state — grid all wall, entity 0 (and every object)
exactly as supplied by the caller — is unchanged. -/
theorem make_map_degenerate (choices : List AttemptChoice) (objs : List Object) :
    make_map [] objs = { map := initialMap, rooms := [], objects := objs }
    ∧ (make_map choices objs).rooms.length ≤ choices.length
    ∧ ((make_map choices objs).rooms = [] →
        make_map choices objs
          = { map := initialMap, rooms := [], objects := objs }) := by
  refine ⟨rfl, ?_, ?_⟩
  · have := fold_rooms_length choices
      { map := initialMap, rooms := [], objects := objs }
    simpa [make_map] using this
  · intro h
    exact (fold_rooms_nil choices
      { map := initialMap, rooms := [], objects := objs } h).1

/-- C8 witness: the `N = 0` run returns the all-wall grid, no rooms, and the
caller's object list with entity 0 untouched. -/
theorem make_map_degenerate_witness :
    make_map [] [player0]
      = { map := initialMap, rooms := [], objects := [player0] } :=
  (make_map_degenerate [] [player0]).2.2 rfl

/-! ### Claim C9 -/

theorem step_preserves_rectBounds (st : GenState) (c : AttemptChoice)
    (h : ∀ r ∈ st.rooms, RectBounds r) :
    ∀ r ∈ (make_map_step st c).rooms, RectBounds r := by
  rcases make_map_step_eq st c with ⟨_, heq⟩ | ⟨_, heq⟩
  · rw [heq]; exact h
  · rw [heq]
    have e1 : ROOM_MIN_SIZE = 6 := rfl
    obtain ⟨b1, b2, b3, b4, b5, b6, b7, b8⟩ := attempt_room_bounds c
    have hA : RectBounds (attempt_room c) :=
      ⟨b1, by omega, b4, b5, by omega, b8⟩
    rcases hr : st.rooms with _ | ⟨r, l⟩
    · rw [make_map_accept_first st c hr]
      intro r2 hr2
      rw [List.mem_singleton] at hr2
      subst hr2
      exact hA
    · rw [make_map_accept_later st c r l hr]
      intro r2 hr2
      rw [List.mem_append] at hr2
      rcases hr2 with hm | hm
      · exact h r2 (by rw [hr]; exact hm)
      · rw [List.mem_singleton] at hm
        subst hm
        exact hA

/-- C9: no write of the generator indexes the grid out of bounds.  Every
accepted room's rectangle fits inside the grid (first conjunct, with
`x2 ≤ MAP_WIDTH − 1` and `y2 ≤ MAP_HEIGHT − 1` as sampled); every index
`create_room` writes for such a rectangle is in bounds (second); such a
rectangle's center — the corridor endpoints — is in bounds (third); and
every index `create_h_tunnel` / `create_v_tunnel` writes between two
in-bounds endpoints is in bounds (fourth and fifth). -/
theorem generation_writes_in_bounds (choices : List AttemptChoice)
    (objs : List Object) :
    (∀ r ∈ (make_map choices objs).rooms, RectBounds r)
    ∧ (∀ r : Rect, RectBounds r → ∀ p ∈ roomInteriorPts r, inMap p.1 p.2)
    ∧ (∀ r : Rect, RectBounds r → inMap r.center.1 r.center.2)
    ∧ (∀ x1 x2 y : Int, inMap x1 y → inMap x2 y →
        ∀ p ∈ hTunnelPts x1 x2 y, inMap p.1 p.2)
    ∧ (∀ y1 y2 x : Int, inMap x y1 → inMap x y2 →
        ∀ p ∈ vTunnelPts y1 y2 x, inMap p.1 p.2) := by
  have e3 : MAP_WIDTH = 80 := rfl
  have e4 : MAP_HEIGHT = 45 := rfl
  refine ⟨?_, ?_, ?_, ?_, ?_⟩
  · exact make_map_fold_invariant (fun st => ∀ r ∈ st.rooms, RectBounds r)
      step_preserves_rectBounds choices
      { map := initialMap, rooms := [], objects := objs }
      (by intro r hr; exact absurd hr (List.not_mem_nil r))
  · rintro r hb ⟨a, b⟩ hp
    rw [mem_roomInteriorPts] at hp
    obtain ⟨b1, b2, b3, b4, b5, b6⟩ := hb
    exact ⟨by omega, by omega, by omega, by omega⟩
  · intro r hb
    obtain ⟨b1, b2, b3, b4, b5, b6⟩ := hb
    have hcx := center_between b1 b2
    have hcy := center_between b4 b5
    show 0 ≤ (r.x1 + r.x2).tdiv 2 ∧ (r.x1 + r.x2).tdiv 2 < MAP_WIDTH
      ∧ 0 ≤ (r.y1 + r.y2).tdiv 2 ∧ (r.y1 + r.y2).tdiv 2 < MAP_HEIGHT
    exact ⟨by omega, by omega, by omega, by omega⟩
  · rintro x1 x2 y h1 h2 ⟨a, b⟩ hp
    rw [mem_hTunnelPts] at hp
    obtain ⟨ha1, ha2, rfl⟩ := hp
    obtain ⟨c1, c2, c3, c4⟩ := h1
    obtain ⟨d1, d2, d3, d4⟩ := h2
    exact ⟨by omega, by omega, c3, c4⟩
  · rintro y1 y2 x h1 h2 ⟨a, b⟩ hp
    rw [mem_vTunnelPts] at hp
    obtain ⟨rfl, ha1, ha2⟩ := hp
    obtain ⟨c1, c2, c3, c4⟩ := h1
    obtain ⟨d1, d2, d3, d4⟩ := h2
    exact ⟨c1, c2, by omega, by omega⟩

/-- C9 witness: the accepted room of a concrete run is in bounds, and the
concrete interior index `(1, 1)` and center `(3, 3)` of that room are valid
grid indices. -/
theorem generation_writes_in_bounds_witness :
    RectBounds ⟨0, 0, 6, 6⟩ ∧ inMap 1 1 ∧ inMap 3 3 := by
  have h := generation_writes_in_bounds [choiceA] [player0]
  have hb : RectBounds ⟨0, 0, 6, 6⟩ := h.1 ⟨0, 0, 6, 6⟩ (by decide)
  exact ⟨hb, h.2.1 ⟨0, 0, 6, 6⟩ hb (1, 1) (by decide), h.2.2.1 ⟨0, 0, 6, 6⟩ hb⟩

/-! ### Claim C10 -/

theorem create_room_preserves_empty (room : Rect) (m : Map) (a b : Int)
    (h : m a b = Tile.empty) : create_room room m a b = Tile.empty := by
  rw [create_room_eval]
  split
  · rfl
  · exact h

theorem carve_dogleg_preserves_empty (flip : Bool) (p q : Int × Int) (m : Map)
    (a b : Int) (h : m a b = Tile.empty) :
    carve_dogleg flip p q m a b = Tile.empty := by
  cases flip
  · show create_h_tunnel p.1 q.1 q.2 (create_v_tunnel p.2 q.2 p.1 m) a b = Tile.empty
    rw [create_h_tunnel_eval]
    by_cases h1 : min p.1 q.1 ≤ a ∧ a ≤ max p.1 q.1 ∧ b = q.2
    · rw [if_pos h1]
    · rw [if_neg h1, create_v_tunnel_eval]
      by_cases h2 : a = p.1 ∧ min p.2 q.2 ≤ b ∧ b ≤ max p.2 q.2
      · rw [if_pos h2]
      · rw [if_neg h2]; exact h
  · show create_v_tunnel p.2 q.2 q.1 (create_h_tunnel p.1 q.1 p.2 m) a b = Tile.empty
    rw [create_v_tunnel_eval]
    by_cases h1 : a = q.1 ∧ min p.2 q.2 ≤ b ∧ b ≤ max p.2 q.2
    · rw [if_pos h1]
    · rw [if_neg h1, create_h_tunnel_eval]
      by_cases h2 : min p.1 q.1 ≤ a ∧ a ≤ max p.1 q.1 ∧ b = p.2
      · rw [if_pos h2]
      · rw [if_neg h2]; exact h

theorem set_object_pos_cons (o : Object) (X : List Object) (x y : Int) :
    set_object_pos (o :: X) PLAYER x y = o.set_pos x y :: X := rfl

theorem place_objects_cons_eq (room : Rect) (o : Object) (X : List Object)
    (cp : PlaceChoice) : ∃ Y, place_objects room (o :: X) cp = o :: Y :=
  ⟨_, rfl⟩

theorem place_objects_get_head (room : Rect) (o : Object) (X : List Object)
    (cp : PlaceChoice) : (place_objects room (o :: X) cp).get? PLAYER = some o :=
  rfl

/-- The center of a rectangle with both sides at least 2 is strictly
interior. -/
theorem center_inside (r : Rect) (h1 : 0 ≤ r.x1) (h2 : r.x1 + 2 ≤ r.x2)
    (h3 : 0 ≤ r.y1) (h4 : r.y1 + 2 ≤ r.y2) :
    r.x1 < r.center.1 ∧ r.center.1 < r.x2
    ∧ r.y1 < r.center.2 ∧ r.center.2 < r.y2 := by
  refine ⟨?_, ?_, ?_, ?_⟩
  · show r.x1 < (r.x1 + r.x2).tdiv 2
    rw [Int.tdiv_eq_ediv (by omega) (by omega)]
    omega
  · show (r.x1 + r.x2).tdiv 2 < r.x2
    rw [Int.tdiv_eq_ediv (by omega) (by omega)]
    omega
  · show r.y1 < (r.y1 + r.y2).tdiv 2
    rw [Int.tdiv_eq_ediv (by omega) (by omega)]
    omega
  · show (r.y1 + r.y2).tdiv 2 < r.y2
    rw [Int.tdiv_eq_ediv (by omega) (by omega)]
    omega

theorem step_preserves_firstRoomInv (st : GenState) (c : AttemptChoice)
    (h : FirstRoomInv st) : FirstRoomInv (make_map_step st c) := by
  obtain ⟨hne, hroom⟩ := h
  obtain ⟨o0, rest, ho⟩ : ∃ o0 rest, st.objects = o0 :: rest := by
    rcases hobj : st.objects with _ | ⟨a, b⟩
    · exact absurd hobj hne
    · exact ⟨a, b, rfl⟩
  rcases make_map_step_eq st c with ⟨_, heq⟩ | ⟨_, heq⟩
  · rw [heq]; exact ⟨hne, hroom⟩
  · rw [heq]
    obtain ⟨b1, b2, b3, b4, b5, b6, b7, b8⟩ := attempt_room_bounds c
    have e1 : ROOM_MIN_SIZE = 6 := rfl
    have hin := center_inside (attempt_room c) b1 (by omega) b5 (by omega)
    obtain ⟨Y, hY⟩ := place_objects_cons_eq (attempt_room c) o0 rest c.place
    rcases hr : st.rooms with _ | ⟨r, l⟩
    · rw [make_map_accept_first st c hr]
      constructor
      · show set_object_pos (place_objects (attempt_room c) st.objects c.place)
            PLAYER (attempt_room c).center.1 (attempt_room c).center.2 ≠ []
        rw [ho, hY, set_object_pos_cons]
        simp
      · intro r0 l0 hrl
        injection hrl with hh1 hh2
        subst hh1
        constructor
        · refine ⟨o0.set_pos (attempt_room c).center.1 (attempt_room c).center.2,
            ?_, rfl⟩
          show (set_object_pos (place_objects (attempt_room c) st.objects c.place)
              PLAYER (attempt_room c).center.1 (attempt_room c).center.2).get?
                PLAYER = _
          rw [ho, hY, set_object_pos_cons]
          rfl
        · show create_room (attempt_room c) st.map
            (attempt_room c).center.1 (attempt_room c).center.2 = Tile.empty
          rw [create_room_eval,
            if_pos ⟨hin.1, hin.2.1, hin.2.2.1, hin.2.2.2⟩]
    · rw [make_map_accept_later st c r l hr]
      have hprev := hroom r l hr
      obtain ⟨o, hoget, hopos⟩ := hprev.1
      have hoo : o = o0 := by
        rw [ho] at hoget
        have h9 : some o0 = some o := hoget
        exact (Option.some.inj h9).symm
      subst hoo
      constructor
      · show place_objects (attempt_room c) st.objects c.place ≠ []
        rw [ho, hY]
        simp
      · intro r0 l0 hrl
        have h5 : r :: (l ++ [attempt_room c]) = r0 :: l0 := hrl
        injection h5 with h6 h7
        subst h6
        constructor
        · refine ⟨o, ?_, hopos⟩
          show (place_objects (attempt_room c) st.objects c.place).get? PLAYER
            = some o
          rw [ho]
          exact place_objects_get_head _ _ _ _
        · apply carve_dogleg_preserves_empty
          apply create_room_preserves_empty
          exact hprev.2

/-- C10: whenever a `make_map` run (starting from a nonempty object
collection, as `main` does) accepts at least one room, entity 0 ends at the
first accepted room's truncating-division center, and — because every sampled
room is at least `ROOM_MIN_SIZE ≥ 2` wide and tall, so the center is strictly
interior and carved by `create_room` — that start tile of the final grid is
floor (`Tile::empty()`: `blocked = false`, `block_sight = false`). -/
theorem player_starts_at_first_room_center (choices : List AttemptChoice)
    (objs : List Object) (h0 : objs ≠ []) :
    ∀ r0 l, (make_map choices objs).rooms = r0 :: l →
      (∃ o, (make_map choices objs).objects.get? PLAYER = some o
          ∧ (o.x, o.y) = r0.center)
      ∧ (make_map choices objs).map r0.center.1 r0.center.2 = Tile.empty := by
  have hInv : FirstRoomInv (make_map choices objs) :=
    make_map_fold_invariant FirstRoomInv step_preserves_firstRoomInv choices
      { map := initialMap, rooms := [], objects := objs }
      ⟨h0, fun r0 l hrl => nomatch hrl⟩
  exact fun r0 l hrl => hInv.2 r0 l hrl

/-- C10 witness: in the concrete one-room run (room `(0,0,6,6)`), entity 0
ends at `(3, 3)` and that tile of the generated grid is floor. -/
theorem player_starts_at_first_room_center_witness :
    (∃ o, (make_map [choiceA] [player0]).objects.get? PLAYER = some o
        ∧ (o.x, o.y) = ((3 : Int), (3 : Int)))
    ∧ (make_map [choiceA] [player0]).map 3 3 = Tile.empty :=
  player_starts_at_first_room_center [choiceA] [player0] (by decide)
    ⟨0, 0, 6, 6⟩ [] (by decide)

/-! ### Claim C7 -/

theorem place_objects_eq (room : Rect) (objects : List Object) (c : PlaceChoice) :
    place_objects room objects c
      = objects
        ++ (List.range (genRange 0 (MAX_ROOM_MONSTERS + 1) c.cntR).toNat).map
            (monster_for room c) := rfl

/-- C7: for a room with nondegenerate sampling ranges (every accepted room
qualifies, since its sides are at least `ROOM_MIN_SIZE = 6`), `place_objects`
draws its monster count from exactly `[0, MAX_ROOM_MONSTERS]` inclusive
(bounds plus surjectivity of the draw), draws each monster's `x` from exactly
`[x1 + 1, x2)` and its `y` from exactly `[y1, y2)` — the `y` range not inset,
unlike `x` —, keeps the existing collection untouched as a prefix and appends
exactly the new monsters to it with no collision check against any existing
position, and each appended entity is the orc kind when its
`rand::random::<f32>() < 0.8` roll is true and the troll kind otherwise. -/
theorem place_objects_spec (room : Rect) (objects : List Object) (c : PlaceChoice)
    (hx : room.x1 + 1 < room.x2) (hy : room.y1 < room.y2) :
    (0 ≤ genRange 0 (MAX_ROOM_MONSTERS + 1) c.cntR
      ∧ genRange 0 (MAX_ROOM_MONSTERS + 1) c.cntR ≤ MAX_ROOM_MONSTERS)
    ∧ (∀ k : Int, 0 ≤ k → k ≤ MAX_ROOM_MONSTERS →
        ∃ rC : Nat, genRange 0 (MAX_ROOM_MONSTERS + 1) rC = k)
    ∧ (∀ k : Int, room.x1 + 1 ≤ k → k < room.x2 →
        ∃ rX : Nat, genRange (room.x1 + 1) room.x2 rX = k)
    ∧ (∀ k : Int, room.y1 ≤ k → k < room.y2 →
        ∃ rY : Nat, genRange room.y1 room.y2 rY = k)
    ∧ (place_objects room objects c).take objects.length = objects
    ∧ (place_objects room objects c).length
        = objects.length + (genRange 0 (MAX_ROOM_MONSTERS + 1) c.cntR).toNat
    ∧ (place_objects room objects c).drop objects.length
        = (List.range (genRange 0 (MAX_ROOM_MONSTERS + 1) c.cntR).toNat).map
            (monster_for room c)
    ∧ (∀ o ∈ (place_objects room objects c).drop objects.length,
        (room.x1 + 1 ≤ o.x ∧ o.x < room.x2 ∧ room.y1 ≤ o.y ∧ o.y < room.y2)
        ∧ ((o.char = 'o' ∧ o.name = "orc" ∧ o.color = DESATURATED_GREEN)
            ∨ (o.char = 'T' ∧ o.name = "troll" ∧ o.color = DARKER_GREEN))
        ∧ o.blocks = true ∧ o.alive = false) := by
  have e5 : MAX_ROOM_MONSTERS = 3 := rfl
  have hcnt := @genRange_bounds 0 (MAX_ROOM_MONSTERS + 1) (by omega) c.cntR
  refine ⟨⟨hcnt.1, by omega⟩, ?_, ?_, ?_, ?_, ?_, ?_, ?_⟩
  · intro k hk1 hk2
    exact genRange_surjective hk1 (by omega)
  · intro k hk1 hk2
    exact genRange_surjective hk1 hk2
  · intro k hk1 hk2
    exact genRange_surjective hk1 hk2
  · rw [place_objects_eq]
    exact List.take_left objects _
  · rw [place_objects_eq]
    simp
  · rw [place_objects_eq]
    exact List.drop_left objects _
  · intro o hmem
    rw [place_objects_eq, List.drop_left, List.mem_map] at hmem
    obtain ⟨j, hj, rfl⟩ := hmem
    have hgx := @genRange_bounds (room.x1 + 1) room.x2 hx (c.monster j).xR
    have hgy := @genRange_bounds room.y1 room.y2 hy (c.monster j).yR
    unfold monster_for
    cases hroll : (c.monster j).orcRoll
    · simp only [hroll, Bool.false_eq_true, if_false]
      exact ⟨⟨hgx.1, hgx.2, hgy.1, hgy.2⟩, Or.inr ⟨rfl, rfl, rfl⟩, rfl, rfl⟩
    · simp only [hroll, if_true]
      exact ⟨⟨hgx.1, hgx.2, hgy.1, hgy.2⟩, Or.inl ⟨rfl, rfl, rfl⟩, rfl, rfl⟩

/-- C7 witness: on the room `(0,0,6,6)` this concrete draw appends exactly
one monster to the player's collection, and the in-range `x` value 3 is
attainable by the `x` draw. -/
theorem place_objects_spec_witness :
    (place_objects ⟨0, 0, 6, 6⟩ [player0] placeW).length = 2
    ∧ (∃ rX : Nat, genRange (0 + 1) 6 rX = 3) := by
  have h := place_objects_spec ⟨0, 0, 6, 6⟩ [player0] placeW (by decide) (by decide)
  constructor
  · rw [h.2.2.2.2.2.1]
    decide
  · exact h.2.2.1 3 (by decide) (by decide)

end Roguelike
